import Mathlib

/-!
Shallow embedding of the `axiom-shell` supervisor (Rust) used to verify the
natural-language specification against the code.  Machine integers are
modelled as `Nat`/`Int`; `chrono` timestamps as integer milliseconds;
`f64` rate-limiter arithmetic as exact rationals; fallible Rust functions
return `Except`.  Concurrent maps (`DashMap`, `HashMap`) are modelled as
association lists or as functions to `Option`.
-/

namespace Shell

/-! ### Association-list helpers (model of `HashMap` with in-place entry mutation) -/

/-- Look up the value bound to `k` (first matching pair). -/
def alookup {β : Type} (l : List (String × β)) (k : String) : Option β :=
  (l.find? (fun p => p.1 == k)).map Prod.snd

/-- Replace the value at an existing key in place (models mutation through
`get_mut` / `entry`): every pair keyed `k` is rebound to `v`, others kept. -/
def aset {β : Type} (l : List (String × β)) (k : String) (v : β) : List (String × β) :=
  l.map (fun p => if p.1 == k then (k, v) else p)

/-- `HashMap::insert`: replace if present, append otherwise. -/
def ainsert {β : Type} (l : List (String × β)) (k : String) (v : β) : List (String × β) :=
  if (alookup l k).isSome then aset l k v else l ++ [(k, v)]

/-- `HashMap::remove`: drop the pair keyed `k`. -/
def aerase {β : Type} (l : List (String × β)) (k : String) : List (String × β) :=
  l.filter (fun p => !(p.1 == k))

theorem alookup_eq_none {β : Type} {l : List (String × β)} {k : String} :
    alookup l k = none ↔ ∀ p ∈ l, p.1 ≠ k := by
  simp [alookup, List.find?_eq_none]

theorem alookup_mem {β : Type} {l : List (String × β)} {k : String} {v : β}
    (h : alookup l k = some v) : (k, v) ∈ l := by
  simp only [alookup, Option.map_eq_some'] at h
  obtain ⟨p, hp, hv⟩ := h
  have hmem := List.mem_of_find?_eq_some hp
  have hk : p.1 = k := by
    have := List.find?_some hp
    simpa using this
  obtain ⟨a, b⟩ := p
  simp only at hk hv
  subst hk; subst hv
  exact hmem

/-! ### `resilience.rs` — circuit breaker

Timestamps (`chrono::DateTime<Utc>`) are modelled as integer milliseconds.
`Duration::num_seconds` truncates toward zero, as Rust integer division does. -/

/-- `chrono::Duration::num_seconds` on a duration given in milliseconds. -/
def numSeconds (ms : Int) : Int := ms.tdiv 1000

inductive CircuitState where
  | Closed
  | Open
  | HalfOpen
deriving DecidableEq

structure CircuitBreaker where
  state : CircuitState
  failure_count : Nat
  last_failure : Option Int
deriving DecidableEq

/-- `CircuitBreaker::new`. -/
def CircuitBreaker.new : CircuitBreaker :=
  { state := .Closed, failure_count := 0, last_failure := none }

/-- `CircuitBreaker::report_success` — `last_failure` is left as is. -/
def CircuitBreaker.report_success (b : CircuitBreaker) : CircuitBreaker :=
  { b with state := .Closed, failure_count := 0 }

/-- `CircuitBreaker::report_failure`; `now` is the current time in ms. -/
def CircuitBreaker.report_failure (b : CircuitBreaker) (now : Int) : CircuitBreaker :=
  let c := b.failure_count + 1
  { state := if 5 ≤ c then .Open else b.state
    failure_count := c
    last_failure := some now }

/-- `CircuitBreaker::should_allow`; returns the decision and the updated breaker. -/
def CircuitBreaker.should_allow (b : CircuitBreaker) (now : Int) : Bool × CircuitBreaker :=
  match b.state with
  | .Closed => (true, b)
  | .Open =>
    match b.last_failure with
    | some last =>
      if numSeconds (now - last) > 30 then (true, { b with state := .HalfOpen })
      else (false, b)
    | none => (false, b)
  | .HalfOpen => (true, b)

/-! ### `resilience.rs` — token bucket

The `f64` fields are modelled as exact rationals; `num_milliseconds` is exact
on `chrono` durations, and the division by 1000 is exact in `ℚ`. -/

structure TokenBucket where
  capacity : ℚ
  tokens : ℚ
  fill_rate : ℚ
  last_filled : Int
deriving DecidableEq

/-- `TokenBucket::new(rate)`; `now` is the creation time (`Utc::now()`) in ms. -/
def TokenBucket.new (rate : ℚ) (now : Int) : TokenBucket :=
  { capacity := rate, tokens := rate, fill_rate := rate, last_filled := now }

/-- `TokenBucket::try_consume`; `now` is `Utc::now()` in ms. -/
def TokenBucket.try_consume (b : TokenBucket) (now : Int) : Bool × TokenBucket :=
  let elapsed : ℚ := ((now - b.last_filled : Int) : ℚ) / 1000
  let filled := min (b.tokens + elapsed * b.fill_rate) b.capacity
  if 1 ≤ filled then
    (true, { b with tokens := filled - 1, last_filled := now })
  else
    (false, { b with tokens := filled, last_filled := now })

/-- A sequence of `try_consume` calls at the given times (model state after
an arbitrary call history). -/
def TokenBucket.runConsume (b : TokenBucket) (times : List Int) : TokenBucket :=
  times.foldl (fun s t => (TokenBucket.try_consume s t).2) b

/-- The spec invariant for the token bucket. -/
def TokenBucket.inv (b : TokenBucket) : Prop :=
  0 ≤ b.tokens ∧ b.tokens ≤ b.capacity

theorem TokenBucket.try_consume_inv {b : TokenBucket} {now : Int}
    (hinv : b.inv) (hrate : 0 ≤ b.fill_rate) (hmono : b.last_filled ≤ now) :
    (b.try_consume now).2.inv ∧ (b.try_consume now).2.fill_rate = b.fill_rate ∧
      (b.try_consume now).2.last_filled = now := by
  obtain ⟨h0, hc⟩ := hinv
  have hcap : (0 : ℚ) ≤ b.capacity := le_trans h0 hc
  have helapsed : (0 : ℚ) ≤ ((now - b.last_filled : Int) : ℚ) / 1000 := by
    apply div_nonneg _ (by norm_num)
    exact_mod_cast Int.sub_nonneg.mpr hmono
  have hfillmul : (0 : ℚ) ≤ ((now - b.last_filled : Int) : ℚ) / 1000 * b.fill_rate :=
    mul_nonneg helapsed hrate
  have hmin_le : min (b.tokens + ((now - b.last_filled : Int) : ℚ) / 1000 * b.fill_rate) b.capacity ≤ b.capacity :=
    min_le_right _ _
  have hmin_nonneg : (0 : ℚ) ≤ min (b.tokens + ((now - b.last_filled : Int) : ℚ) / 1000 * b.fill_rate) b.capacity := by
    apply le_min _ hcap
    exact le_trans h0 (le_add_of_nonneg_right hfillmul)
  simp only [TokenBucket.try_consume, TokenBucket.inv]
  by_cases h1 : (1 : ℚ) ≤ min (b.tokens + ((now - b.last_filled : Int) : ℚ) / 1000 * b.fill_rate) b.capacity
  · rw [if_pos h1]
    exact ⟨⟨by linarith, by linarith⟩, rfl, rfl⟩
  · rw [if_neg h1]
    exact ⟨⟨hmin_nonneg, hmin_le⟩, rfl, rfl⟩

/-! ### `egress.rs` — egress resolver

The two `DashMap`s are modelled as functions to `Option`; `session.json` as an
optional parsed document (`none` = file missing or JSON parse failure, in which
case the Rust code only logs and leaves the tables untouched). -/

/-- A JSON leaf as seen through `serde_json::Value::as_str` (non-string
values are skipped by the loader). -/
inductive JLeaf where
  | str (s : String)
  | nonstr
deriving DecidableEq

def JLeaf.asStr : JLeaf → Option String
  | .str s => some s
  | .nonstr => none

/-- The parsed `~/.axiom/session.json` fields read by
`EgressResolver::reload_from_registry`.  A field is `none` when the JSON
document has no such key (or it is not an object). -/
structure SessionJson where
  bindings : Option (List (String × List (String × List (String × JLeaf))))
  manifests : Option (List (String × List (String × JLeaf)))

structure EgressResolver where
  bindings : String × String × String → Option String
  manifests : String × String → Option String

/-- `DashMap::insert` on a function-modelled map. -/
def finsert {α β : Type} [DecidableEq α] (m : α → Option β) (k : α) (v : β) :
    α → Option β :=
  fun q => if q = k then some v else m q

/-- The nested loops of `reload_from_registry` over the `bindings` object,
starting from the cleared map. -/
def loadBindings (entries : List (String × List (String × List (String × JLeaf)))) :
    (String × String × String) → Option String :=
  entries.foldl
    (fun acc te =>
      te.2.foldl
        (fun acc2 ea =>
          ea.2.foldl
            (fun acc3 au =>
              match au.2.asStr with
              | some url => finsert acc3 (te.1, ea.1, au.1) url
              | none => acc3)
            acc2)
        acc)
    (fun _ => none)

/-- The loop of `reload_from_registry` over the `manifests` object, starting
from the cleared map. -/
def loadManifests (entries : List (String × List (String × JLeaf))) :
    (String × String) → Option String :=
  entries.foldl
    (fun acc tm =>
      tm.2.foldl
        (fun acc2 la =>
          match la.2.asStr with
          | some a => finsert acc2 (tm.1, la.1) a
          | none => acc2)
        acc)
    (fun _ => none)

/-- `EgressResolver::reload_from_registry`.  On a parsed document the
`bindings` table is cleared unconditionally and repopulated from the
`bindings` key when present; the `manifests` table is cleared and repopulated
only inside the `if let` for the `manifests` key. -/
def EgressResolver.reload_from_registry (r : EgressResolver)
    (file : Option SessionJson) : EgressResolver :=
  match file with
  | none => r
  | some j =>
    { bindings := loadBindings (j.bindings.getD [])
      manifests :=
        match j.manifests with
        | some ms => loadManifests ms
        | none => r.manifests }

/-- `EgressResolver::resolve` (the Rust error message wraps the alias in
single quotes; the quotes are omitted here). -/
def EgressResolver.resolve (r : EgressResolver)
    (tomain_id logical_name environment : String) : Except String String :=
  let a := (r.manifests (tomain_id, logical_name)).getD logical_name
  match r.bindings (tomain_id, environment, a) with
  | some url => .ok url
  | none =>
    match r.bindings (tomain_id, "GLOBAL", a) with
    | some url => .ok url
    | none => .error ("No binding for alias " ++ a)

/-! ### `supervisor.rs` / `runtime.rs` — slot table, deploy, retire

The slot table `tenant_id → (environment → TenantInstance)` is modelled as a
nested association list; a `TenantInstance` is identified with its decoded
wasm bytes (the engine config is fixed). -/

/-- The decoded wasm module bytes held by a `TenantInstance`. -/
abbrev Inst : Type := List Nat

/-- The `TenantManager` slot table. -/
abbrev Slots : Type := List (String × List (String × Inst))

/-- `TenantManager::register_tenant`: `entry(id).or_insert_with(HashMap::new)`
on the outer map followed by `insert(env.to_uppercase(), instance)` on the
inner map. -/
def register_tenant (slots : Slots) (id env : String) (inst : Inst) : Slots :=
  match alookup slots id with
  | some m => aset slots id (ainsert m env.toUpper inst)
  | none => slots ++ [(id, ainsert [] env.toUpper inst)]

/-- `TenantManager::get_tenant`. -/
def get_tenant (slots : Slots) (id env : String) : Option Inst :=
  (alookup slots id).bind (fun m => alookup m env.toUpper)

/-- `TenantManager::remove_tenant`: always returns `Ok`; removes the env slot
in place and drops the tenant entry when its inner map becomes empty. -/
def remove_tenant (slots : Slots) (id env : String) : Except String Slots :=
  .ok
    (match alookup slots id with
     | none => slots
     | some m =>
       let m2 := aerase m env.toUpper
       if m2.isEmpty then aerase slots id else aset slots id m2)

/-- `WasmSupervisor::deploy_kernel`.  `wasm = none` models a base64 decode (or
module compilation) failure; the capacity check reads the number of entries of
the outer map and runs before decoding. -/
def deploy_kernel (slots : Slots) (id env : String) (wasm : Option Inst) :
    Except String Slots :=
  if 4 ≤ slots.length ∧ alookup slots id = none then
    .error "Shell capacity reached (max 4 active kernels). Please stop a service before deploying a new one."
  else
    match wasm with
    | none => .error "Failed to decode wasm base64"
    | some bytes => .ok (register_tenant slots id env bytes)

/-- `WasmSupervisor::retire_service` (behind `POST /admin/retire`) just
forwards to `remove_tenant`. -/
def retire_service (slots : Slots) (id env : String) : Except String Slots :=
  remove_tenant slots id env

/-! ### `bridge.rs` — guest export dispatch (`invoke_call`)

A guest module's export table is modelled as a list of `(name, signature)`
pairs; `get_typed_func` succeeds exactly when the pair is present. -/

inductive WasmSig where
  | ptrLenToI32
  | unitToI32
  | unitToUnit
deriving DecidableEq, BEq

abbrev Exports : Type := List (String × WasmSig)

def hasExport (ex : Exports) (n : String) (s : WasmSig) : Bool :=
  ex.any (fun p => p.1 == n && p.2 == s)

/-- `func_name.replace("-", "_")` (character-wise, via the underlying char
list so that it evaluates by reduction). -/
def underscores (s : String) : String :=
  ⟨s.data.map (fun c => if c = '-' then '_' else c)⟩

/-- The `call_variants` vector of `invoke_call`. -/
def call_variants (name : String) : List String :=
  ["__axiom_call_" ++ name, "__axiom_call_" ++ underscores name]

/-- The `plain_variants` vector of `invoke_call`. -/
def plain_variants (name : String) : List String :=
  [name, underscores name, "axiom_health_check"]

/-- The fallback loop of `invoke_call` over `plain_variants`: each variant is
tried as `() → i32` first, then as `() → ()`. -/
def findPlain (ex : Exports) : List String → Option (String × WasmSig)
  | [] => none
  | v :: rest =>
    if hasExport ex v .unitToI32 then some (v, .unitToI32)
    else if hasExport ex v .unitToUnit then some (v, .unitToUnit)
    else findPlain ex rest

/-- `invoke_call`'s export resolution: which export (name and signature) the
bridge ends up invoking, or the not-found error (the Rust message wraps the
name in single quotes; the quotes are omitted here). -/
def invoke_call (ex : Exports) (name : String) : Except String (String × WasmSig) :=
  match (call_variants name).find? (fun v => hasExport ex v .ptrLenToI32) with
  | some v => .ok (v, .ptrLenToI32)
  | none =>
    match findPlain ex (plain_variants name) with
    | some r => .ok r
    | none => .error ("Function " ++ name ++ " not found in Wasm module")

/-! ### `bridge.rs` — linear-memory reads

Guest memory is a byte list; `Memory::read` fails iff the requested range
exceeds the memory size (and on failure leaves the destination buffer as it
was, i.e. zero-filled here). -/

/-- `wasmtime::Memory::read` into a fresh buffer of length `len`. -/
def memRead (mem : List Nat) (ptr len : Nat) : Option (List Nat) :=
  if ptr + len ≤ mem.length then some ((mem.drop ptr).take len) else none

/-- `read_wasm_string`: reads up to 256 bytes at `ptr`, discarding the
`memory.read` result (`let _ = ...`), then scans to the first NUL.  Returns
the raw bytes (UTF-8 decoding is lossy and not modelled). -/
def read_wasm_string (mem : List Nat) (ptr : Nat) : Except String (List Nat) :=
  let buf := (memRead mem ptr 256).getD (List.replicate 256 0)
  .ok (buf.takeWhile (fun b => b ≠ 0))

/-- The guest-pointer read of `axiom_log`: explicit bounds check of
`ptr + len` against the memory size before slicing. -/
def ax_log_read (mem : List Nat) (ptr len : Nat) : Except String (List Nat) :=
  if mem.length < ptr + len then .error "Log pointer out of bounds"
  else .ok ((mem.drop ptr).take len)

/-! ### `bridge.rs` — `http_call` egress pipeline

The pipeline is modelled from the rate-limit gate onward: `rateAllowed` is the
result of `check_downstream`, `b` the per-alias breaker, and `resp` gives the
outcome of the `attempts`-th outbound send (`reqwest` statuses:
`is_success() = 2xx`, `is_server_error() = 5xx`). -/

inductive HttpOutcome where
  | ok (status : Nat) (body : String)
  | err
deriving DecidableEq

inductive BreakerAction where
  | success
  | failure
deriving DecidableEq

/-- The retry loop of `http_call` (`while attempts <= max_retries` with
`max_retries = 3`): `fuel` is the number of loop iterations left
(`4 - attempts`, so the guard `attempts ≤ 3` is `0 < fuel`).  Returns the
breaker action taken, the string written back to the guest, and the attempt
index at which the loop returned (4 on exhaustion).  The Rust exhaustion
message carries a debug dump of the last error, not modelled.  `reqwest`
statuses: `is_success()` is 2xx, `is_server_error()` is 5xx. -/
def runAttemptsGo (resp : Nat → HttpOutcome) : Nat → Nat → BreakerAction × String × Nat
  | 0, attempts => (.failure, "Error: Downstream FAILED after 3 retries", attempts)
  | fuel + 1, attempts =>
    match resp attempts with
    | .ok st body =>
      if 200 ≤ st ∧ st ≤ 299 then (.success, body, attempts)
      else if 500 ≤ st ∧ st ≤ 599 then runAttemptsGo resp fuel (attempts + 1)
      else (.failure, body, attempts)
    | .err => runAttemptsGo resp fuel (attempts + 1)

/-- The whole retry loop: attempts 0 through 3. -/
def runAttempts (resp : Nat → HttpOutcome) : BreakerAction × String × Nat :=
  runAttemptsGo resp 4 0

/-- The `http_call` host function from the downstream rate-limit gate onward:
rate-limit refusal, circuit-breaker gate, retry loop, breaker bookkeeping.
Returns the string written to the guest, the updated breaker, and the attempt
index of the final send. -/
def http_call_pipeline (rateAllowed : Bool) (b : CircuitBreaker) (now : Int)
    (resp : Nat → HttpOutcome) : String × CircuitBreaker × Nat :=
  if rateAllowed = false then ("Error: Rate Limit Exceeded (429)", b, 0)
  else
    let gate := b.should_allow now
    if gate.1 = false then ("Error: Circuit Breaker Open", gate.2, 0)
    else
      match runAttempts resp with
      | (.success, body, n) => (body, gate.2.report_success, n)
      | (.failure, body, n) => (body, gate.2.report_failure now, n)

/-! ## Theorems for the claims -/

/-- The breaker after five consecutive `report_failure` calls from the
initial state. -/
def afterFiveFailures (t1 t2 t3 t4 t5 : Int) : CircuitBreaker :=
  ((((CircuitBreaker.new.report_failure t1).report_failure
    t2).report_failure t3).report_failure t4).report_failure t5

/-- Claim C3, counterexample: with the five failures at time 0, the breaker is
Open, and a `should_allow` call 30.5 s later (i.e. after 30 s in Open) still
returns `false`: `num_seconds` truncates, and the code demands strictly more
than 30 whole seconds. -/
theorem c3_should_allow_at_30500ms_counterexample :
    (afterFiveFailures 0 0 0 0 0).state = CircuitState.Open ∧
    (afterFiveFailures 0 0 0 0 0).should_allow 30500 =
      (false, afterFiveFailures 0 0 0 0 0) := by
  decide

/-- Claim C3, amended: five consecutive `report_failure` calls move the
breaker from the initial Closed state to Open; once strictly more than 30
whole (truncated) seconds have passed since the last failure, the next
`should_allow` returns true and the state becomes Half-Open; a subsequent
`report_success` returns the state to Closed with `failure_count = 0`. -/
theorem c3_breaker_lifecycle (t1 t2 t3 t4 t5 now : Int)
    (h : 30 < numSeconds (now - t5)) :
    (afterFiveFailures t1 t2 t3 t4 t5).state = CircuitState.Open ∧
    ((afterFiveFailures t1 t2 t3 t4 t5).should_allow now).1 = true ∧
    ((afterFiveFailures t1 t2 t3 t4 t5).should_allow now).2.state =
      CircuitState.HalfOpen ∧
    (((afterFiveFailures t1 t2 t3 t4 t5).should_allow now).2.report_success).state =
      CircuitState.Closed ∧
    (((afterFiveFailures t1 t2 t3 t4 t5).should_allow now).2.report_success).failure_count = 0 := by
  have hb : afterFiveFailures t1 t2 t3 t4 t5 =
      { state := .Open, failure_count := 5, last_failure := some t5 } := rfl
  rw [hb]
  simp [CircuitBreaker.should_allow, CircuitBreaker.report_success, h]

/-- Claim C3, witness for the amended theorem at concrete times. -/
theorem c3_breaker_lifecycle_witness :
    30 < numSeconds (31000 - 0) ∧
    ((afterFiveFailures 0 0 0 0 0).should_allow 31000).1 = true :=
  ⟨by decide, (c3_breaker_lifecycle 0 0 0 0 0 31000 (by decide)).2.1⟩

/-- Claim C5, counterexample: `new(rate)` with a negative rate (reachable from
the `rate_limits` object of `session.json`) starts with `tokens < 0`, and a
`try_consume` whose `Utc::now()` is earlier than `last_filled` (clock
stepping backwards) drives `tokens` negative as well. -/
theorem c5_tokens_negative_counterexample :
    (TokenBucket.new (-1) 0).tokens < 0 ∧
    ((TokenBucket.new 1 0).try_consume (-10000)).2.tokens < 0 := by
  constructor
  · show (-1 : ℚ) < 0
    norm_num
  · show ((TokenBucket.new 1 0).try_consume (-10000)).2.tokens < 0
    norm_num [TokenBucket.new, TokenBucket.try_consume]

/-- Helper: the invariant, the sign of the fill rate and the recorded time are
preserved along a monotone sequence of `try_consume` calls. -/
theorem runConsume_inv (times : List Int) (b : TokenBucket)
    (hinv : b.inv) (hrate : 0 ≤ b.fill_rate)
    (hchain : List.Chain (· ≤ ·) b.last_filled times) :
    (b.runConsume times).inv := by
  induction times generalizing b with
  | nil => exact hinv
  | cons t rest ih =>
    cases hchain with
    | cons hle hch =>
      have h := TokenBucket.try_consume_inv hinv hrate hle
      have hstep : b.runConsume (t :: rest) =
          ((b.try_consume t).2).runConsume rest := rfl
      rw [hstep]
      refine ih _ h.1 ?_ ?_
      · rw [h.2.1]; exact hrate
      · rw [h.2.2]; exact hch

/-- Claim C5, amended: for every bucket produced by `new(rate)` with a
nonnegative rate, and after every sequence of `try_consume` calls at
non-decreasing times, `0 ≤ tokens ≤ capacity`.  (A negative configured rate,
or a wall clock that steps backwards between calls, violates the invariant —
see the counterexample.) -/
theorem c5_tokens_within_capacity (rate : ℚ) (now : Int) (times : List Int)
    (hrate : 0 ≤ rate) (hchain : List.Chain (· ≤ ·) now times) :
    0 ≤ ((TokenBucket.new rate now).runConsume times).tokens ∧
    ((TokenBucket.new rate now).runConsume times).tokens ≤
      ((TokenBucket.new rate now).runConsume times).capacity :=
  runConsume_inv times (TokenBucket.new rate now) ⟨hrate, le_refl _⟩ hrate hchain

/-- Claim C5, witness for the amended theorem at concrete inputs. -/
theorem c5_tokens_within_capacity_witness :
    (0 : ℚ) ≤ 1 ∧ List.Chain (· ≤ ·) (0 : Int) [500, 1000] ∧
    0 ≤ ((TokenBucket.new 1 0).runConsume [500, 1000]).tokens :=
  ⟨by norm_num, by norm_num [List.chain_cons],
    (c5_tokens_within_capacity 1 0 [500, 1000] (by norm_num)
      (by norm_num [List.chain_cons])).1⟩

/-- Claim C2: egress resolution substitutes the manifest-mapped alias when
`(tenant, logical_name)` is in the Logical Manifest and otherwise uses the
logical name itself; it then returns the binding at `(tenant, env, alias)` if
present, else the binding at `(tenant, "GLOBAL", alias)` if present, else an
error. -/
theorem c2_egress_resolution (r : EgressResolver) (t l e a : String)
    (ha : r.manifests (t, l) = some a ∨ (r.manifests (t, l) = none ∧ a = l)) :
    (∀ u, r.bindings (t, e, a) = some u → r.resolve t l e = .ok u) ∧
    (r.bindings (t, e, a) = none →
      (∀ u, r.bindings (t, "GLOBAL", a) = some u → r.resolve t l e = .ok u) ∧
      (r.bindings (t, "GLOBAL", a) = none →
        r.resolve t l e = .error ("No binding for alias " ++ a))) := by
  have halias : (r.manifests (t, l)).getD l = a := by
    rcases ha with h | ⟨h, rfl⟩ <;> rw [h] <;> rfl
  refine ⟨fun u hu => ?_, fun hn => ⟨fun u hu => ?_, fun hg => ?_⟩⟩
  · simp [EgressResolver.resolve, halias, hu]
  · simp [EgressResolver.resolve, halias, hn, hu]
  · simp [EgressResolver.resolve, halias, hn, hg]

/-- Claim C2, witness at a concrete resolver: the manifest maps `svc` to
`db`, which is bound only in the GLOBAL environment. -/
theorem c2_egress_resolution_witness :
    (EgressResolver.mk
      (fun k => if k = ("t1", "GLOBAL", "db") then some "http://db:5432" else none)
      (fun k => if k = ("t1", "svc") then some "db" else none)).resolve
        "t1" "svc" "GREEN" = .ok "http://db:5432" :=
  ((c2_egress_resolution
      (EgressResolver.mk
        (fun k => if k = ("t1", "GLOBAL", "db") then some "http://db:5432" else none)
        (fun k => if k = ("t1", "svc") then some "db" else none))
      "t1" "svc" "GREEN" "db" (Or.inl (by decide))).2 (by decide)).1
    "http://db:5432" (by decide)

/-- The stale resolver of the C6 counterexample: one manifest entry, no
bindings. -/
def c6OldResolver : EgressResolver :=
  { bindings := fun _ => none
    manifests := fun k => if k = ("t1", "svc") then some "db" else none }

/-- The C6 counterexample file: parses fine, has a `bindings` object, but no
`manifests` key. -/
def c6File : SessionJson :=
  { bindings := some [], manifests := none }

/-- Claim C6, counterexample: reloading from a parsed `session.json` that has
no `manifests` object leaves the previous manifest entries in place —
`manifests.clear()` sits inside the `if let` on the `manifests` key — so the
in-memory manifests table is not the (empty) manifests content of the file. -/
theorem c6_reload_keeps_stale_manifests_counterexample :
    c6File.manifests = none ∧
    (c6OldResolver.reload_from_registry (some c6File)).manifests ("t1", "svc") =
      some "db" := by
  exact ⟨rfl, rfl⟩

/-- Claim C6, amended: after a reload from a successfully parsed file the
`bindings` table is exactly the bindings content of the file (independent of
the previous state); the `manifests` table is exactly the manifests content of
the file whenever the file has a `manifests` object, and is left untouched
otherwise; an unreadable or unparsable file leaves both tables untouched. -/
theorem c6_reload_reflects_file (r r2 : EgressResolver) (j : SessionJson) :
    (r.reload_from_registry (some j)).bindings = loadBindings (j.bindings.getD []) ∧
    (r.reload_from_registry (some j)).bindings =
      (r2.reload_from_registry (some j)).bindings ∧
    (∀ ms, j.manifests = some ms →
      (r.reload_from_registry (some j)).manifests = loadManifests ms) ∧
    (j.manifests = none →
      (r.reload_from_registry (some j)).manifests = r.manifests) ∧
    r.reload_from_registry none = r := by
  refine ⟨rfl, rfl, fun ms hms => ?_, fun hn => ?_, rfl⟩
  · simp [EgressResolver.reload_from_registry, hms]
  · simp [EgressResolver.reload_from_registry, hn]

/-- Claim C6, witness: the amended theorem applied at the counterexample
resolver and file. -/
theorem c6_reload_reflects_file_witness :
    (c6OldResolver.reload_from_registry (some c6File)).manifests =
      c6OldResolver.manifests :=
  (c6_reload_reflects_file c6OldResolver c6OldResolver c6File).2.2.2.1 rfl

theorem aset_map_fst {β : Type} (l : List (String × β)) (k : String) (v : β) :
    (aset l k v).map Prod.fst = l.map Prod.fst := by
  simp only [aset, List.map_map]
  apply List.map_congr_left
  intro p _
  by_cases h : p.1 == k
  · simp only [Function.comp_apply, if_pos h]
    exact (eq_of_beq h).symm
  · simp only [Function.comp_apply, if_neg h]

theorem alookup_cons_of_pos {β : Type} {q : String × β} {t : List (String × β)}
    {k : String} (h : q.1 = k) : alookup (q :: t) k = some q.2 := by
  unfold alookup
  rw [List.find?_cons_of_pos]
  · rfl
  · exact beq_iff_eq.mpr h

theorem alookup_cons_of_neg {β : Type} {q : String × β} {t : List (String × β)}
    {k : String} (h : ¬ q.1 = k) : alookup (q :: t) k = alookup t k := by
  unfold alookup
  rw [List.find?_cons_of_neg]
  simpa using h

theorem alookup_nodup_unique {β : Type} {l : List (String × β)} {k : String}
    {v : β} (hnd : (l.map Prod.fst).Nodup) (h : alookup l k = some v) :
    ∀ p ∈ l, p.1 = k → p = (k, v) := by
  induction l with
  | nil => simp [alookup] at h
  | cons q t ih =>
    rw [List.map_cons, List.nodup_cons] at hnd
    intro p hp hpk
    rcases List.mem_cons.mp hp with rfl | hpt
    · rw [alookup_cons_of_pos hpk] at h
      obtain ⟨a, b⟩ := p
      simp only at hpk
      cases hpk
      cases Option.some.inj h
      rfl
    · by_cases hq : q.1 = k
      · exfalso
        apply hnd.1
        rw [hq, ← hpk]
        exact List.mem_map_of_mem Prod.fst hpt
      · exact ih hnd.2 (by rw [alookup_cons_of_neg hq] at h; exact h) p hpt hpk

theorem aset_eq_self {β : Type} {l : List (String × β)} {k : String} {v : β}
    (hnd : (l.map Prod.fst).Nodup) (h : alookup l k = some v) :
    aset l k v = l := by
  unfold aset
  have hfix : ∀ p ∈ l, (if p.1 == k then (k, v) else p) = p := by
    intro p hp
    by_cases hk : p.1 == k
    · rw [if_pos hk]
      exact (alookup_nodup_unique hnd h p hp (eq_of_beq hk)).symm
    · rw [if_neg hk]
  exact (List.map_congr_left hfix).trans (List.map_id l)

theorem aerase_eq_self {β : Type} {l : List (String × β)} {k : String}
    (h : alookup l k = none) : aerase l k = l := by
  unfold aerase
  apply List.filter_eq_self.mpr
  intro p hp
  have := alookup_eq_none.mp h p hp
  simpa using this

/-- Claim C4: `deploy_kernel` rejects with the capacity error whenever 4
distinct tenant ids are present and the target id is not among them; a
deployment for an already-present tenant is never blocked by capacity (it
succeeds whenever the wasm decodes); and starting from a table of at most 4
distinct ids, every successful deployment leaves at most 4 distinct ids. -/
theorem c4_capacity_ceiling (slots : Slots) (id env : String) (bytes : Inst)
    (w : Option Inst) (hnd : (slots.map Prod.fst).Nodup) :
    (slots.length = 4 → alookup slots id = none →
      deploy_kernel slots id env w =
        .error "Shell capacity reached (max 4 active kernels). Please stop a service before deploying a new one.") ∧
    ((alookup slots id).isSome →
      deploy_kernel slots id env (some bytes) =
        .ok (register_tenant slots id env bytes)) ∧
    (slots.length ≤ 4 → ∀ slots2, deploy_kernel slots id env w = .ok slots2 →
      slots2.length ≤ 4 ∧ (slots2.map Prod.fst).Nodup) := by
  refine ⟨fun h4 habs => ?_, fun hpres => ?_, fun hle slots2 hok => ?_⟩
  · unfold deploy_kernel
    rw [if_pos ⟨by omega, habs⟩]
  · unfold deploy_kernel
    rw [if_neg]
    rintro ⟨-, hnone⟩
    rw [hnone] at hpres
    simp at hpres
  · unfold deploy_kernel at hok
    by_cases hc : 4 ≤ slots.length ∧ alookup slots id = none
    · rw [if_pos hc] at hok
      cases hok
    · rw [if_neg hc] at hok
      cases w with
      | none => cases hok
      | some b =>
        cases Except.ok.inj hok
        unfold register_tenant
        cases hfind : alookup slots id with
        | some m =>
          dsimp only
          constructor
          · calc (aset slots id (ainsert m env.toUpper b)).length
                = ((aset slots id (ainsert m env.toUpper b)).map Prod.fst).length :=
                  (List.length_map _ _).symm
              _ = (slots.map Prod.fst).length := by rw [aset_map_fst]
              _ = slots.length := List.length_map _ _
              _ ≤ 4 := hle
          · rw [aset_map_fst]
            exact hnd
        | none =>
          dsimp only
          have hlen : slots.length ≤ 3 := by
            rcases not_and_or.mp hc with h | h
            · omega
            · exact absurd hfind h
          have hid : id ∉ slots.map Prod.fst := by
            intro hmem
            rcases List.mem_map.mp hmem with ⟨p, hp, hpk⟩
            exact alookup_eq_none.mp hfind p hp hpk
          constructor
          · rw [List.length_append]
            simp only [List.length_cons, List.length_nil]
            omega
          · rw [List.map_append, List.nodup_append]
            refine ⟨hnd, List.nodup_singleton _, ?_⟩
            intro x hx hx2
            simp only [List.map_cons, List.map_nil, List.mem_singleton] at hx2
            subst hx2
            exact hid hx

/-- A concrete full slot table: four distinct tenants, one slot each. -/
def c4FullSlots : Slots :=
  [("a", [("GREEN", [])]), ("b", [("GREEN", [])]),
   ("c", [("GREEN", [])]), ("d", [("GREEN", [])])]

/-- Claim C4, witness: deploying a 5th distinct tenant into the full table is
rejected with the capacity error. -/
theorem c4_capacity_ceiling_witness :
    (c4FullSlots.map Prod.fst).Nodup ∧
    deploy_kernel c4FullSlots "e" "GREEN" (some []) =
      .error "Shell capacity reached (max 4 active kernels). Please stop a service before deploying a new one." :=
  ⟨by decide,
    (c4_capacity_ceiling c4FullSlots "e" "GREEN" [] (some []) (by decide)).1
      (by decide) (by decide)⟩

/-- Claim C10: on a well-formed slot table (distinct tenant ids, no tenant
with an empty environment map — which is what deploy/retire produce),
`remove_tenant` (and `retire_service` behind `POST /admin/retire`) returns
`Ok` even when no slot exists for `(tenant, environment)`, and leaves the
table unchanged. -/
theorem c10_retire_missing_slot_noop (slots : Slots) (id env : String)
    (hnd : (slots.map Prod.fst).Nodup)
    (hne : ∀ p ∈ slots, p.2 ≠ ([] : List (String × Inst)))
    (hmiss : get_tenant slots id env = none) :
    remove_tenant slots id env = .ok slots ∧
    retire_service slots id env = .ok slots := by
  have hmain : remove_tenant slots id env = .ok slots := by
    unfold remove_tenant
    cases hfind : alookup slots id with
    | none => rfl
    | some m =>
      dsimp only
      have hmenv : alookup m env.toUpper = none := by
        unfold get_tenant at hmiss
        rw [hfind] at hmiss
        simpa using hmiss
      rw [aerase_eq_self hmenv]
      have hmne : m ≠ [] := hne (id, m) (alookup_mem hfind)
      have hfalse : m.isEmpty = false := by
        cases m with
        | nil => exact absurd rfl hmne
        | cons x xs => rfl
      rw [hfalse]
      simp only [Bool.false_eq_true, if_false]
      rw [aset_eq_self hnd hfind]
  exact ⟨hmain, hmain⟩

/-- A concrete slot table for the C10 witness. -/
def c10Slots : Slots := [("t1", [("GREEN", [])])]

/-- Claim C10, witness: retiring a slot of a tenant that is not deployed at
all succeeds and leaves the table untouched. -/
theorem c10_retire_missing_slot_noop_witness :
    (c10Slots.map Prod.fst).Nodup ∧
    get_tenant c10Slots "t2" "BLUE" = none ∧
    remove_tenant c10Slots "t2" "BLUE" = .ok c10Slots :=
  ⟨by decide, by decide,
    (c10_retire_missing_slot_noop c10Slots "t2" "BLUE" (by decide)
      (by decide) (by decide)).1⟩

/-- A downstream that always answers 301 with body `moved`. -/
def c1Resp301 : Nat → HttpOutcome := fun _ => .ok 301 "moved"

/-- Claim C1, counterexample: a 3xx response does not record a breaker
success.  `is_success()` covers only 2xx, so a 301 falls into the catch-all
arm: the breaker records a failure (`failure_count` goes to 1) even though
the body is returned. -/
theorem c1_3xx_records_failure_counterexample :
    http_call_pipeline true CircuitBreaker.new 0 c1Resp301 =
      ("moved", { state := .Closed, failure_count := 1, last_failure := some 0 }, 0) ∧
    (http_call_pipeline true CircuitBreaker.new 0 c1Resp301).2.1 ≠
      CircuitBreaker.new.report_success := by
  decide

/-- Claim C1, amended: a 2xx response records a breaker success and its body
is returned to the guest; a 3xx or 4xx response records a breaker failure and
its body is returned to the guest without any retry (the loop returns at the
same attempt index). -/
theorem c1_status_dispatch (b : CircuitBreaker) (now : Int)
    (resp : Nat → HttpOutcome) (st : Nat) (body : String)
    (hb : b.state = .Closed) (hresp : resp 0 = .ok st body) :
    (∀ fuel n, resp n = .ok st body → 200 ≤ st ∧ st ≤ 299 →
      runAttemptsGo resp (fuel + 1) n = (.success, body, n)) ∧
    (∀ fuel n, resp n = .ok st body → 300 ≤ st ∧ st ≤ 499 →
      runAttemptsGo resp (fuel + 1) n = (.failure, body, n)) ∧
    (200 ≤ st ∧ st ≤ 299 →
      http_call_pipeline true b now resp = (body, b.report_success, 0)) ∧
    (300 ≤ st ∧ st ≤ 499 →
      http_call_pipeline true b now resp = (body, b.report_failure now, 0)) := by
  have hgo2 : ∀ fuel n, resp n = .ok st body → 200 ≤ st ∧ st ≤ 299 →
      runAttemptsGo resp (fuel + 1) n = (.success, body, n) := by
    intro fuel n hr hst
    unfold runAttemptsGo
    rw [hr]
    simp only [if_pos hst]
  have hgo34 : ∀ fuel n, resp n = .ok st body → 300 ≤ st ∧ st ≤ 499 →
      runAttemptsGo resp (fuel + 1) n = (.failure, body, n) := by
    intro fuel n hr hst
    unfold runAttemptsGo
    rw [hr]
    dsimp only
    rw [if_neg (by omega), if_neg (by omega)]
  have hgate : b.should_allow now = (true, b) := by
    unfold CircuitBreaker.should_allow
    rw [hb]
  refine ⟨hgo2, hgo34, fun hst => ?_, fun hst => ?_⟩
  · unfold http_call_pipeline runAttempts
    rw [hgate]
    have h4 := hgo2 3 0 hresp hst
    norm_num at h4
    rw [h4]
    simp
  · unfold http_call_pipeline runAttempts
    rw [hgate]
    have h4 := hgo34 3 0 hresp hst
    norm_num at h4
    rw [h4]
    simp

/-- Claim C1, witness for the amended theorem: a 204 response and a 404
response at concrete inputs. -/
theorem c1_status_dispatch_witness :
    http_call_pipeline true CircuitBreaker.new 0 (fun _ => .ok 404 "nope") =
      ("nope", CircuitBreaker.new.report_failure 0, 0) :=
  (c1_status_dispatch CircuitBreaker.new 0 (fun _ => .ok 404 "nope") 404 "nope"
    rfl rfl).2.2.2 (by omega)

/-- A downstream that always fails at the transport level (unused by the
rate-limited path). -/
def c8RespErr : Nat → HttpOutcome := fun _ => .err

/-- Claim C8, counterexample: on token refusal the guest receives
`Error: Rate Limit Exceeded (429)`, which is not the claimed exact string
`Error: Rate Limit Exceeded`. -/
theorem c8_rate_limit_string_counterexample :
    (http_call_pipeline false CircuitBreaker.new 0 c8RespErr).1 =
      "Error: Rate Limit Exceeded (429)" ∧
    (http_call_pipeline false CircuitBreaker.new 0 c8RespErr).1 ≠
      "Error: Rate Limit Exceeded" := by
  decide

/-- Claim C8, amended: when the per-alias downstream token bucket refuses a
token, the host function returns exactly the string
`Error: Rate Limit Exceeded (429)` to the guest, leaving the breaker
untouched and sending nothing. -/
theorem c8_rate_limit_refusal (b : CircuitBreaker) (now : Int)
    (resp : Nat → HttpOutcome) :
    http_call_pipeline false b now resp =
      ("Error: Rate Limit Exceeded (429)", b, 0) := rfl

/-- The resolution order `invoke_call` actually implements, flattened. -/
def attempt_order (name : String) : List (String × WasmSig) :=
  [("__axiom_call_" ++ name, .ptrLenToI32),
   ("__axiom_call_" ++ underscores name, .ptrLenToI32),
   (name, .unitToI32), (name, .unitToUnit),
   (underscores name, .unitToI32), (underscores name, .unitToUnit),
   ("axiom_health_check", .unitToI32), ("axiom_health_check", .unitToUnit)]

/-- Claim C7, counterexample: a module exporting only `axiom_health_check`
with signature `() → i32` — none of the four claimed attempts match — does
not fail: the bridge falls back to `axiom_health_check` and the invocation
succeeds. -/
theorem c7_health_check_fallback_counterexample :
    invoke_call [("axiom_health_check", WasmSig.unitToI32)] "foo" =
      .ok ("axiom_health_check", WasmSig.unitToI32) := rfl

/-- Claim C7, amended: the bridge tries, in order, `__axiom_call_<name>` then
`__axiom_call_<name_with_underscores>` with signature `(i32,i32) → i32`, then
for each of `name`, `name_with_underscores` and `axiom_health_check` the
signature `() → i32` followed by `() → ()`; the first export present wins,
and only if none of these eight match does the invocation fail with an error
naming the requested function. -/
theorem c7_dispatch_order (ex : Exports) (name : String) :
    invoke_call ex name =
      match (attempt_order name).find? (fun a => hasExport ex a.1 a.2) with
      | some a => .ok a
      | none => .error ("Function " ++ name ++ " not found in Wasm module") := by
  unfold invoke_call attempt_order call_variants plain_variants
  cases h1 : hasExport ex ("__axiom_call_" ++ name) .ptrLenToI32 <;>
    cases h2 : hasExport ex ("__axiom_call_" ++ underscores name) .ptrLenToI32 <;>
    cases h3 : hasExport ex name .unitToI32 <;>
    cases h4 : hasExport ex name .unitToUnit <;>
    cases h5 : hasExport ex (underscores name) .unitToI32 <;>
    cases h6 : hasExport ex (underscores name) .unitToUnit <;>
    cases h7 : hasExport ex "axiom_health_check" .unitToI32 <;>
    cases h8 : hasExport ex "axiom_health_check" .unitToUnit <;>
    simp [findPlain, List.find?, h1, h2, h3, h4, h5, h6, h7, h8]

/-- Claim C9, counterexample: `read_wasm_string` ignores the result of
`memory.read` (`let _ = ...`), so a pointer past the end of linear memory
yields `Ok` of the empty string instead of an error — here memory has
3 bytes and the pointer is 5. -/
theorem c9_oob_read_yields_empty_counterexample :
    read_wasm_string [1, 2, 3] 5 = .ok [] ∧
    (List.length [1, 2, 3] : Nat) < 5 :=
  ⟨rfl, by decide⟩

/-- Claim C9, amended: only `axiom_log` bounds-checks its guest pointer
(erring when `ptr + len` exceeds the memory size); the string pointers of
`http_call`, `db_execute` and `axiom_health_status` go through
`read_wasm_string`, which never errors — a pointer at or past the end of
memory silently produces the empty string (no out-of-memory bytes are ever
returned, since `memory.read` itself fails without filling the buffer). -/
theorem c9_pointer_bounds (mem : List Nat) (ptr len : Nat) :
    (mem.length < ptr + len →
      ax_log_read mem ptr len = .error "Log pointer out of bounds") ∧
    (mem.length ≤ ptr → read_wasm_string mem ptr = .ok []) := by
  constructor
  · intro h
    unfold ax_log_read
    rw [if_pos h]
  · intro h
    unfold read_wasm_string memRead
    rw [if_neg (by omega)]
    refine congrArg Except.ok ?_
    decide

/-- Claim C9, witness: the amended theorem at a concrete memory and an
out-of-range pointer. -/
theorem c9_pointer_bounds_witness :
    ax_log_read [1, 2, 3] 2 10 = .error "Log pointer out of bounds" ∧
    read_wasm_string [1, 2, 3] 7 = .ok [] :=
  ⟨(c9_pointer_bounds [1, 2, 3] 2 10).1 (by decide),
   (c9_pointer_bounds [1, 2, 3] 7 0).2 (by decide)⟩

end Shell
